import Mathlib

/-!
Shallow embedding of the logging pipeline (package `logger` and its
middleware callers) and proofs about its documented behaviour.

The Go source is translated construct by construct:

* `LogEntry`, `LogType`, `LogLevel` mirror the record and enums of the
  data model; `time.Time` values are embedded as `GoTime`, carrying the
  rendered forms actually consumed by the code (`Format("2006-01-02
  15:04:05")` and `Format(time.RFC3339)`).
* Writers that touch the file system or channels are embedded as explicit
  state (queue contents, file contents, backup files by index), and the
  interaction with the inner writer of `AsyncWriter` is recorded as a
  trace of actions.
* Machine integers (`int64`, `int`) are embedded as `Int`/`Nat`; the
  program never approaches their overflow range.
-/

/-- Embedding of a `time.Time` value: the code only consumes a timestamp
through the two renderings below, so the embedding carries exactly those. -/
structure GoTime where
  fmtDateTime : String
  fmtRFC3339 : String
deriving DecidableEq

/-- Embedding of `LogLevel` (`LevelDebug` .. `LevelError`). -/
inductive LogLevel where
  | debug
  | info
  | warn
  | error
deriving DecidableEq

/-- Embedding of `LogType` (string-backed enum). -/
inductive LogType where
  | access
  | media
  | error
  | system
deriving DecidableEq

/-- Embedding of the underlying string of a `LogType` constant. -/
def LogType.toStr : LogType → String
  | .access => "access"
  | .media => "media"
  | .error => "error"
  | .system => "system"

/-- Embedding of `LogEntry`. `map[string]interface{}` is embedded as an
association list of already-rendered values; `Type` is spelled `type'`
because `Type` is reserved in Lean. -/
structure LogEntry where
  Timestamp : GoTime
  Level : LogLevel
  type' : LogType
  IP : String
  UserAgent : String
  Method : String
  Path : String
  StatusCode : Int
  ResponseTime : Int
  Username : String
  FileSize : Int
  Referrer : String
  Message : String
  Extra : List (String × String)
deriving DecidableEq

/-- Embedding of Go `strings.ToUpper` on the ASCII strings the code feeds it. -/
def upperStr (s : String) : String :=
  String.mk (s.toList.map Char.toUpper)

/-- Embedding of Go `strings.ToLower` on the ASCII strings the code feeds it. -/
def lowerStr (s : String) : String :=
  String.mk (s.toList.map Char.toLower)

/-- Embedding of Go `strings.HasPrefix s p`. -/
def strHasPref (s p : String) : Bool :=
  p.toList.isPrefixOf s.toList

/-- Embedding of Go `strings.HasSuffix s p`. -/
def strHasSuff (s p : String) : Bool :=
  p.toList.isSuffixOf s.toList

/-- Helper for `strContains`: does `sub` occur as a contiguous run in `s`. -/
def listContainsSub (sub : List Char) : List Char → Bool
  | [] => sub.isPrefixOf []
  | c :: rest => sub.isPrefixOf (c :: rest) || listContainsSub sub rest

/-- Embedding of Go `strings.Contains s sub`. -/
def strContains (s sub : String) : Bool :=
  listContainsSub sub.toList s.toList

/-! ## AsyncWriter

The Go struct owns a buffered channel `ch` (capacity `bufSize`), a `done`
channel closed by `Close`, and one worker goroutine.  The embedding keeps
the channel buffer as a FIFO list, and the `done` signal as the Boolean
`closed`.  `Write` performs a non-blocking send (`select` with `default`):
with no receiver parked on the channel, the send succeeds exactly when the
buffer has free space, and `Write` consults nothing else — in particular
not `done`. -/
structure AsyncWriter where
  queue : List LogEntry
  bufSize : Nat
  closed : Bool
deriving DecidableEq

/-- Embedding of `AsyncWriter.Write`: non-blocking enqueue, buffer-full
error otherwise; the `done` signal is not consulted. -/
def AsyncWriter.Write (w : AsyncWriter) (entry : LogEntry) : AsyncWriter × Option String :=
  if w.queue.length < w.bufSize then
    ({ w with queue := w.queue ++ [entry] }, none)
  else
    (w, some "日志缓冲区已满")

/-- One observable interaction of the async machinery with its inner writer. -/
inductive WAction where
  | write (e : LogEntry)
  | closeInner
deriving DecidableEq

/-- Embedding of the worker's drain phase (the inner `for`/`select` loop run
after `done` is closed): it dequeues and forwards entries until the channel
buffer is empty, then returns. -/
def drainLoop : List LogEntry → List WAction
  | [] => []
  | e :: rest => WAction.write e :: drainLoop rest

/-- Embedding of `AsyncWriter.Close`: close `done`, wait for the worker to
drain the queue, then close the inner writer.  The second component is the
ordered trace of calls made to the inner writer. -/
def AsyncWriter.Close (w : AsyncWriter) : AsyncWriter × List WAction :=
  ({ w with queue := [], closed := true }, drainLoop w.queue ++ [WAction.closeInner])

/-- Sample entry used by concrete witnesses. -/
def entry0 : LogEntry :=
  { Timestamp := ⟨"2025-01-01 00:00:00", "2025-01-01T00:00:00Z"⟩
    Level := .info
    type' := .access
    IP := "1.2.3.4"
    UserAgent := ""
    Method := "GET"
    Path := "/d/a.jpg"
    StatusCode := 200
    ResponseTime := 15
    Username := "u"
    FileSize := 0
    Referrer := ""
    Message := ""
    Extra := [] }

/-! ## Request context and filters

The filters read only `c.Request.URL.Path`, `c.Writer.Status()` and a few
headers/context keys from the `gin.Context`; the embedding carries exactly
those. -/
structure GinCtx where
  path : String
  status : Int
  clientIP : String
  method : String
  userAgent : String
  referer : String
  username? : Option String
deriving DecidableEq

/-- Embedding of the `LogFilter` interface: its single method `ShouldLog`. -/
def LogFilterF : Type :=
  GinCtx → LogType → Bool

/-- Embedding of `FilterMode` (`FilterModeAnd`, `FilterModeOr`). -/
inductive FilterMode where
  | and
  | or
deriving DecidableEq

/-- Embedding of `CompositeFilter`. -/
structure CompositeFilter where
  filters : List LogFilterF
  mode : FilterMode

/-- Embedding of `CompositeFilter.ShouldLog`: empty list short-circuits to
`true`; AND mode is the early-exit conjunction loop, OR mode the early-exit
disjunction loop. -/
def CompositeFilter.ShouldLog (f : CompositeFilter) (c : GinCtx) (logType : LogType) : Bool :=
  if f.filters.length = 0 then
    true
  else
    match f.mode with
    | .and => f.filters.all fun g => g c logType
    | .or => f.filters.any fun g => g c logType

/-- Embedding of `MediaFilter` (the two fixed format lists). -/
structure MediaFilter where
  imageFormats : List String
  videoFormats : List String

/-- Embedding of `NewMediaFilter`. -/
def NewMediaFilter : MediaFilter :=
  { imageFormats :=
      [".jpg", ".jpeg", ".png", ".gif", ".bmp", ".webp", ".svg", ".ico",
       ".tiff", ".tif", ".psd", ".raw", ".cr2", ".nef", ".orf", ".sr2",
       ".heic", ".heif", ".avif", ".jxl"]
    videoFormats :=
      [".mp4", ".avi", ".mov", ".wmv", ".flv", ".mkv", ".webm",
       ".m4v", ".3gp", ".f4v", ".asf", ".rm", ".rmvb", ".vob",
       ".ts", ".mts", ".m2ts", ".divx", ".xvid", ".ogv"]}

/-- Loop body shared by the image and video loops of `MediaFilter.ShouldLog`. -/
def mediaFormatHit (pathLower format : String) : Bool :=
  strHasSuff pathLower format ||
    strContains pathLower (format ++ "?") ||
    strContains pathLower (format ++ "&")

/-- Embedding of `MediaFilter.ShouldLog`. -/
def MediaFilter.ShouldLog (f : MediaFilter) (c : GinCtx) (logType : LogType) : Bool :=
  if logType ≠ .media then
    true
  else
    let path := c.path
    let pathLower := lowerStr path
    let isDrivePath := strHasPref path "/d/" || strHasPref path "/p/" || strHasPref path "/ad/"
    if !isDrivePath then
      false
    else if f.imageFormats.any (mediaFormatHit pathLower) then
      true
    else if f.videoFormats.any (mediaFormatHit pathLower) then
      true
    else
      false

/-- Statement of the media recognition rule in the words of the spec: the
path must begin with one of the drive prefixes, and the lower-cased path
must end with a listed dot-extension or contain one immediately followed
by `?` or `&`.  Written from the spec to be compared with the code's
`MediaFilter.ShouldLog`. -/
def mediaRecognitionSpec (c : GinCtx) (logType : LogType) : Bool :=
  if logType ≠ .media then
    true
  else
    (strHasPref c.path "/d/" || strHasPref c.path "/p/" || strHasPref c.path "/ad/") &&
      (NewMediaFilter.imageFormats ++ NewMediaFilter.videoFormats).any
        (mediaFormatHit (lowerStr c.path))

/-! ## StandardLogger

The logger's `filter` interface field may be nil (`Option`), its four typed
operations return the entry handed to the bound writer, or `none` when the
call returns without writing.  `time.Now()` is passed in as an explicit
`GoTime` argument. -/
structure StandardLogger where
  filter : Option LogFilterF
  enabled : Bool

/-- Embedding of `StandardLogger.LogAccess`. -/
def StandardLogger.LogAccess (l : StandardLogger) (now : GoTime) (c : GinCtx)
    (statusCode : Int) (responseTimeMillis : Int) : Option LogEntry :=
  if !l.enabled then
    none
  else if (match l.filter with | some f => !f c .access | none => false) then
    none
  else
    some
      { Timestamp := now
        Level := .info
        type' := .access
        IP := c.clientIP
        UserAgent := c.userAgent
        Method := c.method
        Path := c.path
        StatusCode := statusCode
        ResponseTime := responseTimeMillis
        Username := c.username?.getD ""
        FileSize := 0
        Referrer := c.referer
        Message := ""
        Extra := [] }

/-- Embedding of `StandardLogger.LogMedia`. -/
def StandardLogger.LogMedia (l : StandardLogger) (now : GoTime) (c : GinCtx)
    (username : String) (fileSize : Int) : Option LogEntry :=
  if !l.enabled then
    none
  else if (match l.filter with | some f => !f c .media | none => false) then
    none
  else
    some
      { Timestamp := now
        Level := .info
        type' := .media
        IP := c.clientIP
        UserAgent := c.userAgent
        Method := c.method
        Path := c.path
        StatusCode := 0
        ResponseTime := 0
        Username := username
        FileSize := fileSize
        Referrer := c.referer
        Message := ""
        Extra := [] }

/-- Embedding of the error-message assembly in `StandardLogger.LogError`. -/
def logErrorMessage (err : Option String) (message : String) : String :=
  match err with
  | some e => if message ≠ "" then message ++ ": " ++ e else e
  | none => message

/-- Embedding of `StandardLogger.LogError` (`err` is the `error` argument,
already rendered by `Error()`). -/
def StandardLogger.LogError (l : StandardLogger) (now : GoTime) (c : GinCtx)
    (err : Option String) (message : String) : Option LogEntry :=
  if !l.enabled then
    none
  else if (match l.filter with | some f => !f c .error | none => false) then
    none
  else
    some
      { Timestamp := now
        Level := .error
        type' := .error
        IP := c.clientIP
        UserAgent := c.userAgent
        Method := c.method
        Path := c.path
        StatusCode := 0
        ResponseTime := 0
        Username := c.username?.getD ""
        FileSize := 0
        Referrer := ""
        Message := logErrorMessage err message
        Extra := [] }

/-- Embedding of `StandardLogger.LogSystem`: note that the source builds and
writes the entry without ever consulting `l.filter`. -/
def StandardLogger.LogSystem (l : StandardLogger) (now : GoTime) (level : LogLevel)
    (message : String) (extra : List (String × String)) : Option LogEntry :=
  if !l.enabled then
    none
  else
    some
      { Timestamp := now
        Level := level
        type' := .system
        IP := ""
        UserAgent := ""
        Method := ""
        Path := ""
        StatusCode := 0
        ResponseTime := 0
        Username := ""
        FileSize := 0
        Referrer := ""
        Message := message
        Extra := extra }

/-! ## MultiWriter

Member writers are embedded by their observable behaviour: the error
returned by `Write` for a given entry and the error returned by `Close`. -/
structure MemberWriter where
  writeErr : LogEntry → Option String
  closeErr : Option String

/-- Embedding of `MultiWriter`. -/
structure MultiWriter where
  writers : List MemberWriter

/-- Embedding of the `for` loop of `MultiWriter.Write`: every member is
invoked; a member's error is printed to the diagnostic sink and the loop
continues.  The result lists, in invocation order, each member's returned
error. -/
def multiWriteLoop : List MemberWriter → LogEntry → List (Option String)
  | [], _ => []
  | wr :: rest, e => wr.writeErr e :: multiWriteLoop rest e

/-- Embedding of `MultiWriter.Write`: runs the loop, then `return nil`. -/
def MultiWriter.Write (w : MultiWriter) (entry : LogEntry) :
    List (Option String) × Option String :=
  (multiWriteLoop w.writers entry, none)

/-- Embedding of the `for` loop of `MultiWriter.Close` accumulating `lastErr`. -/
def multiCloseLoop : List MemberWriter → Option String → Option String
  | [], lastErr => lastErr
  | wr :: rest, lastErr =>
    multiCloseLoop rest (match wr.closeErr with | some e => some e | none => lastErr)

/-- Embedding of `MultiWriter.Close`. -/
def MultiWriter.Close (w : MultiWriter) : Option String :=
  multiCloseLoop w.writers none

/-! ## Formatters -/

/-- Embedding of `JSONFormatter.Format` (a single `fmt.Sprintf` over the
fixed field list, terminated by a newline). -/
def JSONFormatter.Format (entry : LogEntry) : String :=
  "\x7b\"timestamp\":\"" ++ entry.Timestamp.fmtRFC3339 ++
    "\",\"type\":\"" ++ entry.type'.toStr ++
    "\",\"ip\":\"" ++ entry.IP ++
    "\",\"method\":\"" ++ entry.Method ++
    "\",\"path\":\"" ++ entry.Path ++
    "\",\"status_code\":" ++ toString entry.StatusCode ++
    ",\"response_time\":" ++ toString entry.ResponseTime ++
    ",\"username\":\"" ++ entry.Username ++
    "\",\"message\":\"" ++ entry.Message ++
    "\"\x7d" ++ "\n"

/-! ## FileWriter

The embedding models the piece of file system the writer owns: the active
file's contents, and the numbered backups `filename.i` as a map from `i`
to file contents (`none` = the file does not exist).  Byte counts use Go
`len`, i.e. UTF-8 byte length. -/
structure FileWriter where
  maxSize : Int
  maxFiles : Nat
  currentSize : Int
  active : String
  backups : Nat → Option String

/-- Embedding of `os.Remove (filename.i)` on the backup map. -/
def removeBackup (b : Nat → Option String) (i : Nat) : Nat → Option String :=
  fun j => if j = i then none else b j

/-- Embedding of `os.Rename (filename.src) (filename.dst)` on the backup
map (source known to exist; destination overwritten). -/
def renameBackup (b : Nat → Option String) (src dst : Nat) : Nat → Option String :=
  fun j => if j = src then none else if j = dst then b src else b j

/-- Embedding of one iteration of the backup-shift loop in
`FileWriter.rotate` at index `i`: when `i = maxFiles-1` first delete
`filename.(i+1)`, then rename `filename.i` to `filename.(i+1)` if it exists. -/
def rotateStep (maxFiles : Nat) (b : Nat → Option String) (i : Nat) : Nat → Option String :=
  let b1 := if i = maxFiles - 1 then removeBackup b (i + 1) else b
  if (b1 i).isSome then renameBackup b1 i (i + 1) else b1

/-- Embedding of `for i := maxFiles - 1; i > 0; i--` running `rotateStep`:
`rotateLoop m b k` runs the body at `k, k-1, …, 1`. -/
def rotateLoop (m : Nat) (b : Nat → Option String) : Nat → (Nat → Option String)
  | 0 => b
  | k + 1 => rotateLoop m (rotateStep m b (k + 1)) k

/-- Embedding of `FileWriter.rotate`: shift backups, rename the active file
to `filename.1`, open a fresh active file, reset the byte counter. -/
def FileWriter.rotate (w : FileWriter) : FileWriter :=
  let shifted := rotateLoop w.maxFiles w.backups (w.maxFiles - 1)
  { w with
      backups := fun j => if j = 1 then some w.active else shifted j
      active := ""
      currentSize := 0 }

/-- Embedding of the hard-coded line layout of `FileWriter.Write`
(`fmt.Sprintf("[%s] %s IP:%s Method:%s Path:%s Status:%d User:%s\n", …)`). -/
def fileLine (entry : LogEntry) : String :=
  "[" ++ entry.Timestamp.fmtDateTime ++ "] " ++ upperStr entry.type'.toStr ++
    " IP:" ++ entry.IP ++ " Method:" ++ entry.Method ++ " Path:" ++ entry.Path ++
    " Status:" ++ toString entry.StatusCode ++ " User:" ++ entry.Username ++ "\n"

/-- Embedding of `FileWriter.Write`.  The second component counts the
`rotate` calls made during this write (the source calls it in exactly one
spot, guarded by the size test). -/
def FileWriter.Write (w : FileWriter) (entry : LogEntry) : FileWriter × Nat :=
  let content := fileLine entry
  if w.currentSize + (content.utf8ByteSize : Int) > w.maxSize then
    let w1 := w.rotate
    ({ w1 with
        active := w1.active ++ content
        currentSize := w1.currentSize + (content.utf8ByteSize : Int) }, 1)
  else
    ({ w with
        active := w.active ++ content
        currentSize := w.currentSize + (content.utf8ByteSize : Int) }, 0)

/-! # Theorems -/

theorem drainLoop_eq_map (q : List LogEntry) : drainLoop q = q.map WAction.write := by
  induction q with
  | nil => rfl
  | cons e rest ih => simp [drainLoop, ih]

/-- Claim C1: `AsyncWriter.Write` never blocks: when the bounded queue has
free space the entry is appended and no error is returned, and when the
queue is full it returns the buffer-full error with the queue unchanged;
with `bufSize = 2` and a stalled worker, two writes succeed and the third
returns the capacity error. -/
theorem asyncWriter_write_nonblocking (w : AsyncWriter) (e e1 e2 e3 : LogEntry) :
    (w.queue.length < w.bufSize →
      AsyncWriter.Write w e = ({ w with queue := w.queue ++ [e] }, none)) ∧
    (¬ w.queue.length < w.bufSize →
      AsyncWriter.Write w e = (w, some "日志缓冲区已满")) ∧
    ((AsyncWriter.Write ⟨[], 2, false⟩ e1).2 = none ∧
      (AsyncWriter.Write (AsyncWriter.Write ⟨[], 2, false⟩ e1).1 e2).2 = none ∧
      (AsyncWriter.Write
        (AsyncWriter.Write (AsyncWriter.Write ⟨[], 2, false⟩ e1).1 e2).1 e3).2 =
        some "日志缓冲区已满" ∧
      (AsyncWriter.Write
        (AsyncWriter.Write (AsyncWriter.Write ⟨[], 2, false⟩ e1).1 e2).1 e3).1.queue =
        [e1, e2]) := by
  refine ⟨fun h => ?_, fun h => ?_, ?_⟩
  · simp [AsyncWriter.Write, h]
  · simp [AsyncWriter.Write, h]
  · simp [AsyncWriter.Write]

/-- Witness for C1 at concrete inputs. -/
theorem asyncWriter_write_nonblocking_witness :
    AsyncWriter.Write ⟨[], 2, false⟩ entry0 = (⟨[entry0], 2, false⟩, none) ∧
    AsyncWriter.Write ⟨[entry0, entry0], 2, false⟩ entry0 =
      (⟨[entry0, entry0], 2, false⟩, some "日志缓冲区已满") :=
  ⟨(asyncWriter_write_nonblocking ⟨[], 2, false⟩ entry0 entry0 entry0 entry0).1
      (by decide),
   (asyncWriter_write_nonblocking ⟨[entry0, entry0], 2, false⟩ entry0 entry0 entry0
      entry0).2.1 (by decide)⟩

/-- Claim C2 counterexample: after `Close` (shutdown signaled, queue
drained) a subsequent `Write` still succeeds — it returns no error and
enqueues the entry — because the source's `Write` never consults `done`. -/
theorem asyncWriter_write_after_close_cex :
    (AsyncWriter.Close ⟨[entry0], 2, false⟩).1.closed = true ∧
    (AsyncWriter.Write (AsyncWriter.Close ⟨[entry0], 2, false⟩).1 entry0).2 = none ∧
    (AsyncWriter.Write (AsyncWriter.Close ⟨[entry0], 2, false⟩).1 entry0).1.queue =
      [entry0] :=
  ⟨rfl, rfl, rfl⟩

/-- Claim C2 (amended): `Write` does not consult the shutdown signal: on a
writer whose `done` channel has been closed it behaves exactly as before —
it enqueues and returns no error whenever the queue has free space (such
entries may never be delivered), and returns the buffer-full error only
when the queue is full. -/
theorem asyncWriter_write_after_close (w : AsyncWriter) (e : LogEntry)
    (_h : w.closed = true) :
    (w.queue.length < w.bufSize →
      AsyncWriter.Write w e = ({ w with queue := w.queue ++ [e] }, none)) ∧
    (¬ w.queue.length < w.bufSize →
      AsyncWriter.Write w e = (w, some "日志缓冲区已满")) := by
  refine ⟨fun hlt => ?_, fun hge => ?_⟩
  · simp [AsyncWriter.Write, hlt]
  · simp [AsyncWriter.Write, hge]

/-- Witness for the amended C2 at a concrete closed writer. -/
theorem asyncWriter_write_after_close_witness :
    AsyncWriter.Write ⟨[], 2, true⟩ entry0 = (⟨[entry0], 2, true⟩, none) :=
  (asyncWriter_write_after_close ⟨[], 2, true⟩ entry0 rfl).1 (by decide)

/-- Claim C3: `Close` signals shutdown and the worker drains: the trace of
calls on the inner writer is exactly one `write` per queued entry, in queue
order, followed by the inner `close`; hence every entry queued at `Close`
time is written before the inner writer is closed. -/
theorem asyncWriter_close_drains (w : AsyncWriter) (e : LogEntry) (he : e ∈ w.queue) :
    (AsyncWriter.Close w).2 = w.queue.map WAction.write ++ [WAction.closeInner] ∧
    WAction.write e ∈ (AsyncWriter.Close w).2.dropLast ∧
    (AsyncWriter.Close w).2.getLast? = some WAction.closeInner := by
  refine ⟨by simp [AsyncWriter.Close, drainLoop_eq_map], ?_, ?_⟩
  · simp [AsyncWriter.Close, drainLoop_eq_map]
    exact he
  · simp [AsyncWriter.Close, drainLoop_eq_map]

/-- Witness for C3 at a concrete queue. -/
theorem asyncWriter_close_drains_witness :
    (AsyncWriter.Close ⟨[entry0], 2, false⟩).2 =
      [WAction.write entry0, WAction.closeInner] ∧
    WAction.write entry0 ∈ (AsyncWriter.Close ⟨[entry0], 2, false⟩).2.dropLast :=
  ⟨(asyncWriter_close_drains ⟨[entry0], 2, false⟩ entry0 (by simp)).1,
   (asyncWriter_close_drains ⟨[entry0], 2, false⟩ entry0 (by simp)).2.1⟩

/-- Sample request context used by concrete witnesses. -/
def ctx0 : GinCtx :=
  { path := "/d/a.jpg", status := 200, clientIP := "1.2.3.4", method := "GET"
    userAgent := "", referer := "", username? := none }

/-- Claim C4: `CompositeFilter.ShouldLog` is the conjunction of its members
in AND mode, the disjunction of its members in OR mode (when any members
exist), and `true` on an empty member list in either mode. -/
theorem compositeFilter_modes (fs : List LogFilterF) (m : FilterMode)
    (c : GinCtx) (t : LogType) :
    (CompositeFilter.ShouldLog ⟨fs, .and⟩ c t = fs.all fun g => g c t) ∧
    (fs ≠ [] → CompositeFilter.ShouldLog ⟨fs, .or⟩ c t = fs.any fun g => g c t) ∧
    CompositeFilter.ShouldLog ⟨[], m⟩ c t = true := by
  refine ⟨?_, fun hne => ?_, ?_⟩
  · cases fs with
    | nil => simp [CompositeFilter.ShouldLog]
    | cons g rest => simp [CompositeFilter.ShouldLog]
  · cases fs with
    | nil => exact absurd rfl hne
    | cons g rest => simp [CompositeFilter.ShouldLog]
  · simp [CompositeFilter.ShouldLog]

/-- Witness for C4 at a concrete two-member chain. -/
theorem compositeFilter_modes_witness :
    CompositeFilter.ShouldLog ⟨([fun _ _ => true, fun _ _ => false] : List LogFilterF), .or⟩
        ctx0 .access =
      List.any ([fun _ _ => true, fun _ _ => false] : List LogFilterF)
        (fun g => g ctx0 .access) :=
  (compositeFilter_modes ([fun _ _ => true, fun _ _ => false] : List LogFilterF)
      .or ctx0 .access).2.1 (by simp)

/-- Claim C5: `MediaFilter.ShouldLog` passes every non-media stream; on the
media stream it agrees with the spec's recognition rule (drive prefix plus
case-insensitive allow-listed extension, as a suffix or followed by `?` or
`&`); in particular `/d/photo.JPG` passes while `/x/photo.jpg` and
`/d/doc.pdf` do not. -/
theorem mediaFilter_rule (c : GinCtx) (t : LogType) :
    MediaFilter.ShouldLog NewMediaFilter c t = mediaRecognitionSpec c t ∧
    (t ≠ .media → MediaFilter.ShouldLog NewMediaFilter c t = true) ∧
    MediaFilter.ShouldLog NewMediaFilter
      { ctx0 with path := "/d/photo.JPG" } .media = true ∧
    MediaFilter.ShouldLog NewMediaFilter
      { ctx0 with path := "/x/photo.jpg" } .media = false ∧
    MediaFilter.ShouldLog NewMediaFilter
      { ctx0 with path := "/d/doc.pdf" } .media = false := by
  refine ⟨?_, fun ht => ?_, by decide, by decide, by decide⟩
  · simp only [MediaFilter.ShouldLog, mediaRecognitionSpec, List.any_append]
    cases t with
    | media =>
      simp only [ne_eq, not_true_eq_false, if_false, Bool.false_eq_true]
      cases hd : (strHasPref c.path "/d/" || strHasPref c.path "/p/" ||
          strHasPref c.path "/ad/") with
      | false => rfl
      | true =>
        cases hi : NewMediaFilter.imageFormats.any (mediaFormatHit (lowerStr c.path)) with
        | true => rfl
        | false =>
          cases hv : NewMediaFilter.videoFormats.any (mediaFormatHit (lowerStr c.path)) with
          | true => rfl
          | false => rfl
    | access => rfl
    | error => rfl
    | system => rfl
  · simp [MediaFilter.ShouldLog, ht]

/-- Witness for C5: a non-media stream passes unconditionally. -/
theorem mediaFilter_rule_witness :
    MediaFilter.ShouldLog NewMediaFilter ctx0 .access = true :=
  (mediaFilter_rule ctx0 .access).2.1 (by decide)

/-- Claim C7 counterexample: an enabled logger whose bound filter rejects
every stream still hands a `system` entry to its writer — the source's
`LogSystem` never consults the filter. -/
theorem standardLogger_logSystem_skips_filter_cex :
    (StandardLogger.LogSystem (⟨some (fun _ _ => false), true⟩ : StandardLogger)
      ⟨"", ""⟩ .info "boot" []).isSome = true :=
  rfl

/-- Claim C7 (amended): `LogAccess`, `LogMedia` and `LogError` first check
the enabled flag, then consult the bound filter for their stream, and on
rejection return without handing an entry to the writer; `LogSystem`
checks only the enabled flag and hands the entry to the writer without
consulting the filter. -/
theorem standardLogger_typed_ops (l : StandardLogger) (now : GoTime) (c : GinCtx)
    (st rt : Int) (user : String) (fsz : Int) (err : Option String) (msg : String)
    (level : LogLevel) (extra : List (String × String)) :
    (l.enabled = false →
      l.LogAccess now c st rt = none ∧ l.LogMedia now c user fsz = none ∧
        l.LogError now c err msg = none ∧ l.LogSystem now level msg extra = none) ∧
    (∀ f, l.enabled = true → l.filter = some f →
      (f c .access = false → l.LogAccess now c st rt = none) ∧
        (f c .media = false → l.LogMedia now c user fsz = none) ∧
        (f c .error = false → l.LogError now c err msg = none) ∧
        (f c .access = true → (l.LogAccess now c st rt).isSome = true) ∧
        (f c .media = true → (l.LogMedia now c user fsz).isSome = true) ∧
        (f c .error = true → (l.LogError now c err msg).isSome = true)) ∧
    (l.enabled = true → (l.LogSystem now level msg extra).isSome = true) := by
  refine ⟨fun hoff => ?_, fun f hon hf => ?_, fun hon => ?_⟩
  · exact ⟨by simp [StandardLogger.LogAccess, hoff],
      by simp [StandardLogger.LogMedia, hoff],
      by simp [StandardLogger.LogError, hoff],
      by simp [StandardLogger.LogSystem, hoff]⟩
  · refine ⟨fun hr => ?_, fun hr => ?_, fun hr => ?_,
      fun hp => ?_, fun hp => ?_, fun hp => ?_⟩
    · simp [StandardLogger.LogAccess, hon, hf, hr]
    · simp [StandardLogger.LogMedia, hon, hf, hr]
    · simp [StandardLogger.LogError, hon, hf, hr]
    · simp [StandardLogger.LogAccess, hon, hf, hp]
    · simp [StandardLogger.LogMedia, hon, hf, hp]
    · simp [StandardLogger.LogError, hon, hf, hp]
  · simp [StandardLogger.LogSystem, hon]

/-- Witness for the amended C7: a rejecting filter suppresses `LogAccess`
but not `LogSystem` on the same enabled logger. -/
theorem standardLogger_typed_ops_witness :
    StandardLogger.LogAccess (⟨some (fun _ _ => false), true⟩ : StandardLogger)
        ⟨"", ""⟩ ctx0 200 15 = none ∧
    (StandardLogger.LogSystem (⟨some (fun _ _ => false), true⟩ : StandardLogger)
        ⟨"", ""⟩ .info "boot" []).isSome = true :=
  ⟨((standardLogger_typed_ops (⟨some (fun _ _ => false), true⟩ : StandardLogger)
      ⟨"", ""⟩ ctx0 200 15 "" 0 none "boot" .info []).2.1
      (fun _ _ => false) rfl rfl).1 rfl,
   (standardLogger_typed_ops (⟨some (fun _ _ => false), true⟩ : StandardLogger)
      ⟨"", ""⟩ ctx0 200 15 "" 0 none "boot" .info []).2.2 rfl⟩

theorem multiWriteLoop_eq_map (ws : List MemberWriter) (e : LogEntry) :
    multiWriteLoop ws e = ws.map fun wr => wr.writeErr e := by
  induction ws with
  | nil => rfl
  | cons wr rest ih => simp [multiWriteLoop, ih]

theorem getLast?_cons_or {α : Type} (a : α) (l : List α) :
    (a :: l).getLast? = l.getLast?.or (some a) := by
  induction l generalizing a with
  | nil => rfl
  | cons b t ih =>
    rw [List.getLast?_cons_cons, ih b]
    cases h : t.getLast? <;> simp [Option.or]

theorem multiCloseLoop_eq (ws : List MemberWriter) (acc : Option String) :
    multiCloseLoop ws acc = ((ws.filterMap fun wr => wr.closeErr).getLast?).or acc := by
  induction ws generalizing acc with
  | nil => simp [multiCloseLoop]
  | cons wr rest ih =>
    cases h : wr.closeErr with
    | none => simp [multiCloseLoop, h, ih, List.filterMap_cons]
    | some e =>
      simp only [multiCloseLoop, h, ih, List.filterMap_cons, getLast?_cons_or]
      cases hl : (rest.filterMap fun wr => wr.closeErr).getLast? <;> simp [Option.or]

/-- Claim C8: `MultiWriter.Write` invokes every member writer once, in list
order (the result trace is the full member list's write results), and
itself returns no error regardless of member failures; `MultiWriter.Close`
closes every member and returns the last-seen member `Close` error, or no
error when none failed. -/
theorem multiWriter_fanout (w : MultiWriter) (e : LogEntry) :
    MultiWriter.Write w e = (w.writers.map fun wr => wr.writeErr e, none) ∧
    MultiWriter.Close w = (w.writers.filterMap fun wr => wr.closeErr).getLast? := by
  constructor
  · simp [MultiWriter.Write, multiWriteLoop_eq_map]
  · simp [MultiWriter.Close, multiCloseLoop_eq]

/-- Sample entry for the C9 counterexample: `UserAgent` is set non-empty. -/
def entryC9 : LogEntry :=
  { entry0 with UserAgent := "UA-XYZ", Referrer := "REF-XYZ", FileSize := 77 }

/-- Claim C9 counterexample: `UserAgent` is set to a non-empty value on the
entry, yet the structured formatter's line does not contain that value
anywhere — the JSON formatter renders only its nine fixed fields. -/
theorem jsonFormatter_drops_userAgent_cex :
    entryC9.UserAgent = "UA-XYZ" ∧
    strContains (JSONFormatter.Format entryC9) "UA-XYZ" = false := by
  constructor
  · rfl
  · decide

/-- Claim C9 (amended): every field the structured formatter renders —
timestamp (RFC3339), type, ip, method, path, status_code, response_time,
username, message — appears verbatim (as a substring, with its exact
value) in the produced line; the remaining `LogEntry` fields (user agent,
file size, referrer, level, extra) are not rendered at all. -/
theorem jsonFormatter_fields_verbatim (e : LogEntry) :
    (∃ p q, JSONFormatter.Format e = p ++ (e.Timestamp.fmtRFC3339 ++ q)) ∧
    (∃ p q, JSONFormatter.Format e = p ++ (e.type'.toStr ++ q)) ∧
    (∃ p q, JSONFormatter.Format e = p ++ (e.IP ++ q)) ∧
    (∃ p q, JSONFormatter.Format e = p ++ (e.Method ++ q)) ∧
    (∃ p q, JSONFormatter.Format e = p ++ (e.Path ++ q)) ∧
    (∃ p q, JSONFormatter.Format e = p ++ (toString e.StatusCode ++ q)) ∧
    (∃ p q, JSONFormatter.Format e = p ++ (toString e.ResponseTime ++ q)) ∧
    (∃ p q, JSONFormatter.Format e = p ++ (e.Username ++ q)) ∧
    (∃ p q, JSONFormatter.Format e = p ++ (e.Message ++ q)) := by
  refine ⟨⟨"\x7b\"timestamp\":\"",
      "\",\"type\":\"" ++ e.type'.toStr ++ "\",\"ip\":\"" ++ e.IP ++
        "\",\"method\":\"" ++ e.Method ++ "\",\"path\":\"" ++ e.Path ++
        "\",\"status_code\":" ++ toString e.StatusCode ++
        ",\"response_time\":" ++ toString e.ResponseTime ++
        ",\"username\":\"" ++ e.Username ++ "\",\"message\":\"" ++ e.Message ++
        "\"\x7d" ++ "\n", ?_⟩,
    ⟨"\x7b\"timestamp\":\"" ++ e.Timestamp.fmtRFC3339 ++ "\",\"type\":\"",
      "\",\"ip\":\"" ++ e.IP ++ "\",\"method\":\"" ++ e.Method ++
        "\",\"path\":\"" ++ e.Path ++ "\",\"status_code\":" ++
        toString e.StatusCode ++ ",\"response_time\":" ++
        toString e.ResponseTime ++ ",\"username\":\"" ++ e.Username ++
        "\",\"message\":\"" ++ e.Message ++ "\"\x7d" ++ "\n", ?_⟩,
    ⟨"\x7b\"timestamp\":\"" ++ e.Timestamp.fmtRFC3339 ++ "\",\"type\":\"" ++
        e.type'.toStr ++ "\",\"ip\":\"",
      "\",\"method\":\"" ++ e.Method ++ "\",\"path\":\"" ++ e.Path ++
        "\",\"status_code\":" ++ toString e.StatusCode ++
        ",\"response_time\":" ++ toString e.ResponseTime ++
        ",\"username\":\"" ++ e.Username ++ "\",\"message\":\"" ++ e.Message ++
        "\"\x7d" ++ "\n", ?_⟩,
    ⟨"\x7b\"timestamp\":\"" ++ e.Timestamp.fmtRFC3339 ++ "\",\"type\":\"" ++
        e.type'.toStr ++ "\",\"ip\":\"" ++ e.IP ++ "\",\"method\":\"",
      "\",\"path\":\"" ++ e.Path ++ "\",\"status_code\":" ++
        toString e.StatusCode ++ ",\"response_time\":" ++
        toString e.ResponseTime ++ ",\"username\":\"" ++ e.Username ++
        "\",\"message\":\"" ++ e.Message ++ "\"\x7d" ++ "\n", ?_⟩,
    ⟨"\x7b\"timestamp\":\"" ++ e.Timestamp.fmtRFC3339 ++ "\",\"type\":\"" ++
        e.type'.toStr ++ "\",\"ip\":\"" ++ e.IP ++ "\",\"method\":\"" ++
        e.Method ++ "\",\"path\":\"",
      "\",\"status_code\":" ++ toString e.StatusCode ++
        ",\"response_time\":" ++ toString e.ResponseTime ++
        ",\"username\":\"" ++ e.Username ++ "\",\"message\":\"" ++ e.Message ++
        "\"\x7d" ++ "\n", ?_⟩,
    ⟨"\x7b\"timestamp\":\"" ++ e.Timestamp.fmtRFC3339 ++ "\",\"type\":\"" ++
        e.type'.toStr ++ "\",\"ip\":\"" ++ e.IP ++ "\",\"method\":\"" ++
        e.Method ++ "\",\"path\":\"" ++ e.Path ++ "\",\"status_code\":",
      ",\"response_time\":" ++ toString e.ResponseTime ++
        ",\"username\":\"" ++ e.Username ++ "\",\"message\":\"" ++ e.Message ++
        "\"\x7d" ++ "\n", ?_⟩,
    ⟨"\x7b\"timestamp\":\"" ++ e.Timestamp.fmtRFC3339 ++ "\",\"type\":\"" ++
        e.type'.toStr ++ "\",\"ip\":\"" ++ e.IP ++ "\",\"method\":\"" ++
        e.Method ++ "\",\"path\":\"" ++ e.Path ++ "\",\"status_code\":" ++
        toString e.StatusCode ++ ",\"response_time\":",
      ",\"username\":\"" ++ e.Username ++ "\",\"message\":\"" ++ e.Message ++
        "\"\x7d" ++ "\n", ?_⟩,
    ⟨"\x7b\"timestamp\":\"" ++ e.Timestamp.fmtRFC3339 ++ "\",\"type\":\"" ++
        e.type'.toStr ++ "\",\"ip\":\"" ++ e.IP ++ "\",\"method\":\"" ++
        e.Method ++ "\",\"path\":\"" ++ e.Path ++ "\",\"status_code\":" ++
        toString e.StatusCode ++ ",\"response_time\":" ++
        toString e.ResponseTime ++ ",\"username\":\"",
      "\",\"message\":\"" ++ e.Message ++ "\"\x7d" ++ "\n", ?_⟩,
    ⟨"\x7b\"timestamp\":\"" ++ e.Timestamp.fmtRFC3339 ++ "\",\"type\":\"" ++
        e.type'.toStr ++ "\",\"ip\":\"" ++ e.IP ++ "\",\"method\":\"" ++
        e.Method ++ "\",\"path\":\"" ++ e.Path ++ "\",\"status_code\":" ++
        toString e.StatusCode ++ ",\"response_time\":" ++
        toString e.ResponseTime ++ ",\"username\":\"" ++ e.Username ++
        "\",\"message\":\"",
      "\"\x7d" ++ "\n", ?_⟩⟩ <;>
    simp [JSONFormatter.Format, String.append_assoc]

theorem rotateStep_eval (m : Nat) (b : Nat → Option String) (i j : Nat) :
    rotateStep m b i j =
      if j = i then (if (b i).isSome then none else b j)
      else if j = i + 1 then
        (if (b i).isSome then b i else (if i = m - 1 then none else b j))
      else b j := by
  have hii : ¬ i = i + 1 := by omega
  unfold rotateStep
  by_cases h1 : i = m - 1 <;> by_cases h2 : (b i).isSome <;>
    by_cases h3 : j = i <;> by_cases h4 : j = i + 1 <;>
    simp_all [removeBackup, renameBackup]

theorem rotateStep_untouched (m : Nat) (b : Nat → Option String) (i j : Nat)
    (h : j < i ∨ i + 1 < j) : rotateStep m b i j = b j := by
  rw [rotateStep_eval, if_neg (show ¬ j = i by omega),
    if_neg (show ¬ j = i + 1 by omega)]

theorem rotateStep_clears (m : Nat) (b : Nat → Option String) (i : Nat) :
    rotateStep m b i i = none := by
  rw [rotateStep_eval, if_pos rfl]
  cases hb : b i <;> simp [hb]

theorem rotateStep_shift (m : Nat) (b : Nat → Option String) (i : Nat)
    (h : i = m - 1 ∨ b (i + 1) = none) : rotateStep m b i (i + 1) = b i := by
  rw [rotateStep_eval, if_neg (show ¬ i + 1 = i by omega), if_pos rfl]
  cases hb : b i with
  | some v => simp [hb]
  | none =>
    simp only [hb, Option.isSome_none, Bool.false_eq_true, if_false, ite_false]
    rcases h with h | h
    · simp [h]
    · split_ifs <;> simp [h]

theorem rotateLoop_untouched (m : Nat) (k j : Nat) (b : Nat → Option String)
    (h : k + 1 < j) : rotateLoop m b k j = b j := by
  induction k generalizing b with
  | zero => rfl
  | succ k ih =>
    rw [rotateLoop, ih _ (by omega),
      rotateStep_untouched m b (k + 1) j (Or.inr (by omega))]

theorem rotateLoop_shift (m : Nat) (k : Nat) :
    ∀ (b : Nat → Option String), k + 1 ≤ m - 1 → b (k + 1) = none →
    ∀ i, 1 ≤ i → i ≤ k → rotateLoop m b k (i + 1) = b i := by
  induction k with
  | zero => intro b _ _ i h1 h2; omega
  | succ k ih =>
    intro b hk hnone i h1 hik
    rw [rotateLoop]
    by_cases hi : i ≤ k
    · rw [ih (rotateStep m b (k + 1)) (by omega) (rotateStep_clears m b (k + 1)) i h1 hi]
      exact rotateStep_untouched m b (k + 1) i (Or.inl (by omega))
    · have hieq : i = k + 1 := by omega
      subst hieq
      rw [rotateLoop_untouched m k (k + 1 + 1) _ (by omega)]
      exact rotateStep_shift m b (k + 1) (Or.inr hnone)

theorem rotateLoop_top_shift (m : Nat) (b : Nat → Option String) (i : Nat)
    (h1 : 1 ≤ i) (h2 : i + 1 ≤ m) : rotateLoop m b (m - 1) (i + 1) = b i := by
  have hm : m - 1 = (m - 2) + 1 := by omega
  rw [hm, rotateLoop]
  by_cases hi : i ≤ m - 2
  · rw [rotateLoop_shift m (m - 2) (rotateStep m b (m - 2 + 1)) (by omega)
      (by rw [← hm]; exact rotateStep_clears m b (m - 1)) i h1 hi]
    exact rotateStep_untouched m b (m - 2 + 1) i (Or.inl (by omega))
  · have hieq : i = m - 1 := by omega
    rw [rotateLoop_untouched m (m - 2) (i + 1) _ (by omega), ← hm, ← hieq]
    exact rotateStep_shift m b i (Or.inl (by omega))

/-- Claim C6: a `FileWriter.Write` calls `rotate` exactly once when
`currentSize + len(content) > maxSize` and never otherwise; rotation moves
the active file to `filename.1`, shifts each existing backup `filename.i`
to `filename.i+1` (for `i+1 ≤ maxFiles`, the slot at `maxFiles` having
been deleted first), opens a fresh active file, and resets the counter so
that after a rotating write `currentSize` is the byte length of the new
entry alone; a non-rotating write appends and accumulates the counter. -/
theorem fileWriter_write_rotation (w : FileWriter) (e : LogEntry) :
    ((FileWriter.Write w e).2 =
      if w.currentSize + ((fileLine e).utf8ByteSize : Int) > w.maxSize then 1 else 0) ∧
    (w.currentSize + ((fileLine e).utf8ByteSize : Int) > w.maxSize →
      (FileWriter.Write w e).1.currentSize = ((fileLine e).utf8ByteSize : Int) ∧
      (FileWriter.Write w e).1.active = fileLine e ∧
      (FileWriter.Write w e).1.backups 1 = some w.active ∧
      (∀ i, 1 ≤ i → i + 1 ≤ w.maxFiles →
        (FileWriter.Write w e).1.backups (i + 1) = w.backups i)) ∧
    (¬ w.currentSize + ((fileLine e).utf8ByteSize : Int) > w.maxSize →
      (FileWriter.Write w e).1.currentSize =
          w.currentSize + ((fileLine e).utf8ByteSize : Int) ∧
      (FileWriter.Write w e).1.active = w.active ++ fileLine e ∧
      (FileWriter.Write w e).1.backups = w.backups) := by
  refine ⟨?_, fun hrot => ?_, fun hno => ?_⟩
  · by_cases h : w.currentSize + ((fileLine e).utf8ByteSize : Int) > w.maxSize <;>
      simp [FileWriter.Write, h]
  · refine ⟨?_, ?_, ?_, fun i h1 h2 => ?_⟩
    · simp [FileWriter.Write, FileWriter.rotate, hrot]
    · simp [FileWriter.Write, FileWriter.rotate, hrot]
    · simp [FileWriter.Write, FileWriter.rotate, hrot]
    · simp only [FileWriter.Write, FileWriter.rotate, hrot, if_pos, ite_true]
      have : ¬ i + 1 = 1 := by omega
      simp only [this, if_false, ite_false]
      exact rotateLoop_top_shift w.maxFiles w.backups i h1 h2
  · exact ⟨by simp [FileWriter.Write, hno], by simp [FileWriter.Write, hno],
      by simp [FileWriter.Write, hno]⟩

/-- Initial writer for the C6 witness: `maxSize = 200` bytes, `maxFiles = 3`,
empty active file, one pre-existing backup `filename.1`. -/
def fw0 : FileWriter :=
  { maxSize := 200, maxFiles := 3, currentSize := 0, active := ""
    backups := fun j => if j = 1 then some "old1" else none }

/-- State after the first witness write. -/
def fw1 : FileWriter := (FileWriter.Write fw0 entry0).1

/-- State after the second witness write. -/
def fw2 : FileWriter := (FileWriter.Write fw1 entry0).1

/-- Witness for C6: each entry renders to 83 bytes, so with `maxSize = 200`
the first two writes do not rotate and the third rotates exactly once,
resetting the counter to the third entry's length, moving the active file
to backup 1 and shifting the old backup 1 to backup 2. -/
theorem fileWriter_write_rotation_witness :
    (FileWriter.Write fw0 entry0).2 = 0 ∧
    (FileWriter.Write fw1 entry0).2 = 0 ∧
    (FileWriter.Write fw2 entry0).2 = 1 ∧
    (FileWriter.Write fw2 entry0).1.currentSize =
      ((fileLine entry0).utf8ByteSize : Int) ∧
    (FileWriter.Write fw2 entry0).1.backups 1 = some fw2.active ∧
    (FileWriter.Write fw2 entry0).1.backups 2 = fw2.backups 1 :=
  ⟨((fileWriter_write_rotation fw0 entry0).1).trans (by decide),
   ((fileWriter_write_rotation fw1 entry0).1).trans (by decide),
   ((fileWriter_write_rotation fw2 entry0).1).trans (by decide),
   ((fileWriter_write_rotation fw2 entry0).2.1 (by decide)).1,
   ((fileWriter_write_rotation fw2 entry0).2.1 (by decide)).2.2.1,
   ((fileWriter_write_rotation fw2 entry0).2.1 (by decide)).2.2.2 1 (by decide) (by decide)⟩

/-- Claim C10: the line `FileWriter.Write` persists is always the fixed
hard-coded layout built from the entry alone — the writer holds no
formatter and consults none, so the configured format (for example
`"json"`) cannot change it — and that layout is not the structured
formatter's output. -/
theorem fileWriter_fixed_layout (w : FileWriter) (e : LogEntry) :
    fileLine e =
      "[" ++ e.Timestamp.fmtDateTime ++ "] " ++ upperStr e.type'.toStr ++
        " IP:" ++ e.IP ++ " Method:" ++ e.Method ++ " Path:" ++ e.Path ++
        " Status:" ++ toString e.StatusCode ++ " User:" ++ e.Username ++ "\n" ∧
    (∃ p, (FileWriter.Write w e).1.active = p ++ fileLine e) ∧
    fileLine entry0 ≠ JSONFormatter.Format entry0 := by
  refine ⟨rfl, ?_, by decide⟩
  by_cases h : w.currentSize + ((fileLine e).utf8ByteSize : Int) > w.maxSize
  · exact ⟨"", by simp [FileWriter.Write, FileWriter.rotate, h]⟩
  · exact ⟨w.active, by simp [FileWriter.Write, h]⟩
